import Mathlib

/-!
Verification of the OpenPGP transferable public key ("certificate") module:
construction (`SignedPublicKey.new`, `SignedPublicSubKey.new`), binding
verification (`verify`), canonical serialization (`to_writer`, `write_len`)
and derived views (`as_unsigned`, `expires_at`, `matches_block_type`).

The module under study composes several external collaborators (packet
parsing, the cryptographic signature checks, the identity-details bundle,
ASCII armor).  Those collaborators are modelled abstractly: packets carry
their serialized body bytes, and each cryptographic check is a function
field producing the check's result, so that the control flow and data flow
of the module itself is embedded faithfully.
-/

set_option autoImplicit false

namespace RPGP

/-- Modelled from the spec: the signature-type tag carried by a binding
signature (external `packet::SignatureType`).  Only `SubkeyBinding` and
`SubkeyRevocation` are distinguished by the module; other types are
represented by further constructors. -/
inductive SignatureType where
  | SubkeyBinding
  | SubkeyRevocation
  | CertGeneric
  | Binary
  | Text
  | KeyRevocation
  | Other (code : Nat)
  deriving DecidableEq, Repr

/-- Modelled from the spec: key flags subpacket data declaring a key's
permitted capabilities; the module only inspects the signing capability. -/
structure KeyFlags where
  sign : Bool
  rest : Nat
  deriving DecidableEq, Repr

/-- Modelled from the spec: the primary public key packet
(external `packet::PublicKey`): public key material whose serialized body
is `body`, with a creation time. -/
structure PublicKeyPacket where
  body : List Nat
  created_at : Int

/-- Modelled from the spec: a subkey packet (external `packet::PublicSubkey`). -/
structure PublicSubkeyPacket where
  body : List Nat
  created_at : Int

/-- Modelled from the spec: an embedded (reverse) signature carried inside a
binding signature; `verify_primary_key_binding subkey primary` is the
delegated cryptographic check of the reverse primary-key binding. -/
structure BackSig where
  body : List Nat
  verify_primary_key_binding : PublicSubkeyPacket → PublicKeyPacket → Except String Unit

/-- Modelled from the spec: subpacket payloads; the module only pattern
matches for `EmbeddedSignature`. -/
inductive SubpacketData where
  | EmbeddedSignature (sig : BackSig)
  | OtherData (code : Nat)

/-- Modelled from the spec: the parsed configuration of a signature,
exposing its hashed subpacket set. -/
structure SigConfig where
  hashed_subpackets : List SubpacketData

/-- Modelled from the spec: a binding signature (external
`packet::Signature`).  `typ` is the optional signature type, `key_flags`
its key-flags subpacket, `embedded_signature` the result of the external
accessor `embedded_signature()`, `config` the parsed signature
configuration, `verify_subkey_binding primary subkey` the delegated
cryptographic forward-binding check, and `body` its serialized body. -/
structure Signature where
  typ : Option SignatureType
  key_flags : KeyFlags
  embedded_signature : Option BackSig
  config : Option SigConfig
  verify_subkey_binding : PublicKeyPacket → PublicSubkeyPacket → Except String Unit
  body : List Nat

/-- Modelled from the spec: the unsigned projection of the details bundle
(`details.as_unsigned()`), treated as an abstract value. -/
structure UnsignedKeyDetails where
  code : Nat
  deriving DecidableEq, Repr

/-- Modelled from the spec: the identity-details bundle (external
`SignedKeyDetails`): an optional key-expiration duration, the delegated
self-signature verification against a primary key, its own serialized
encoding `bytes` (the collaborator keeps its own predictor exact), and its
unsigned projection. -/
structure SignedKeyDetails where
  key_expiration_time : Option Int
  verify : PublicKeyPacket → Except String Unit
  bytes : List Nat
  as_unsigned : UnsignedKeyDetails

/-- A signed public subkey: key material plus its binding signatures
(`SignedPublicSubKey` in the source). -/
structure SignedPublicSubKey where
  key : PublicSubkeyPacket
  signatures : List Signature

/-- A signed public key, i.e. an OpenPGP certificate
(`SignedPublicKey` in the source). -/
structure SignedPublicKey where
  primary_key : PublicKeyPacket
  details : SignedKeyDetails
  public_subkeys : List SignedPublicSubKey

/-- Modelled from the spec: the unsigned subkey view
(external `PublicSubkey::new(key, keyflags, embedded)`). -/
structure PublicSubkey where
  key : PublicSubkeyPacket
  keyflags : KeyFlags
  embedded : Option BackSig

/-- Modelled from the spec: the unsigned certificate view
(external `PublicKey::new(primary_key, details, public_subkeys)`). -/
structure PublicKey where
  primary_key : PublicKeyPacket
  details : UnsignedKeyDetails
  public_subkeys : List PublicSubkey

/-- Source `SignedPublicSubKey::new`: retain only signatures whose type is
subkey binding or subkey revocation (the source logs and drops others). -/
def SignedPublicSubKey.new (key : PublicSubkeyPacket) (signatures : List Signature) :
    SignedPublicSubKey :=
  ⟨key, signatures.filter (fun sig =>
    decide (sig.typ = some SignatureType.SubkeyBinding) ||
    decide (sig.typ = some SignatureType.SubkeyRevocation))⟩

/-- Source `SignedPublicKey::new`: retain only subkeys with a non-empty signature
list (the source logs and drops unsigned subkeys). -/
def SignedPublicKey.new (primary_key : PublicKeyPacket) (details : SignedKeyDetails)
    (public_subkeys : List SignedPublicSubKey) : SignedPublicKey :=
  ⟨primary_key, details, public_subkeys.filter (fun key => !key.signatures.isEmpty)⟩

/-- Source `SignedPublicKey::expires_at`. -/
def SignedPublicKey.expires_at (k : SignedPublicKey) : Option Int :=
  match k.details.key_expiration_time with
  | none => none
  | some expiration => some (k.primary_key.created_at + expiration)

/-- The per-signature body of the loop in `SignedPublicSubKey::verify`:
the forward binding check, then for signing-capable flags the embedded
reverse binding check. -/
def SignedPublicSubKey.verifyOneSig (key : PublicKeyPacket) (subkey : PublicSubkeyPacket)
    (sig : Signature) : Except String Unit := do
  sig.verify_subkey_binding key subkey
  if sig.key_flags.sign then
    match sig.embedded_signature with
    | none => throw "missing embedded signature for signing capable subkey"
    | some backsig => backsig.verify_primary_key_binding subkey key
  else
    pure ()

/-- The signature loop of `SignedPublicSubKey::verify` (the `?` operator
aborts on the first failing signature). -/
def SignedPublicSubKey.verifySigs (key : PublicKeyPacket) (subkey : PublicSubkeyPacket) :
    List Signature → Except String Unit
  | [] => pure ()
  | sig :: rest => do
    SignedPublicSubKey.verifyOneSig key subkey sig
    SignedPublicSubKey.verifySigs key subkey rest

/-- Source `SignedPublicSubKey::verify`. -/
def SignedPublicSubKey.verify (sk : SignedPublicSubKey) (key : PublicKeyPacket) :
    Except String Unit := do
  if sk.signatures.isEmpty then
    throw "missing subkey bindings"
  SignedPublicSubKey.verifySigs key sk.key sk.signatures

/-- The subkey loop of `SignedPublicKey::verify_public_subkeys`. -/
def SignedPublicKey.verifySubkeyList (key : PublicKeyPacket) :
    List SignedPublicSubKey → Except String Unit
  | [] => pure ()
  | subkey :: rest => do
    subkey.verify key
    SignedPublicKey.verifySubkeyList key rest

/-- Source `SignedPublicKey::verify_public_subkeys`. -/
def SignedPublicKey.verify_public_subkeys (k : SignedPublicKey) : Except String Unit :=
  SignedPublicKey.verifySubkeyList k.primary_key k.public_subkeys

/-- Source `SignedPublicKey::verify`. -/
def SignedPublicKey.verify (k : SignedPublicKey) : Except String Unit := do
  k.details.verify k.primary_key
  k.verify_public_subkeys

/-! ### Serialization -/

/-- Packet-type tag values (RFC9580): signature, public key, public subkey. -/
def Tag.Signature : Nat := 2

def Tag.PublicKey : Nat := 6

def Tag.PublicSubkey : Nat := 14

/-- Modelled from the spec: the byte width of a full packet header — a
one-octet packet-type tag followed by the smallest-width RFC9580 length
encoding (one octet below 192, two octets below 8384, five octets
otherwise).  External `PacketLength::fixed_encoding_len`. -/
def PacketLength.fixed_encoding_len (len : Nat) : Nat :=
  if len < 192 then 2 else if len < 8384 then 3 else 6

/-- Modelled from the spec: the bytes of a packet header — the packet-type
octet (new format: 0xC0 plus the tag) followed by the smallest-width
RFC9580 length encoding of the body length. -/
def packet_header (tag : Nat) (len : Nat) : List Nat :=
  let lenBytes :=
    if len < 192 then [len]
    else if len < 8384 then [192 + (len - 192) / 256, (len - 192) % 256]
    else [255, len / 16777216 % 256, len / 65536 % 256, len / 256 % 256, len % 256]
  (192 + tag) :: lenBytes

/-- Modelled from the spec: a key packet's `write_len` is the length of its
serialized body. -/
def PublicKeyPacket.write_len (p : PublicKeyPacket) : Nat := p.body.length

/-- Modelled from the spec: `to_writer_with_header` emits the packet header
followed by the body. -/
def PublicKeyPacket.to_writer_with_header (p : PublicKeyPacket) : List Nat :=
  packet_header Tag.PublicKey p.body.length ++ p.body

/-- Modelled from the spec: a subkey packet's `write_len`. -/
def PublicSubkeyPacket.write_len (p : PublicSubkeyPacket) : Nat := p.body.length

/-- Modelled from the spec: a subkey packet's `to_writer_with_header`. -/
def PublicSubkeyPacket.to_writer_with_header (p : PublicSubkeyPacket) : List Nat :=
  packet_header Tag.PublicSubkey p.body.length ++ p.body

/-- Modelled from the spec: a signature packet's `write_len`. -/
def Signature.write_len (sig : Signature) : Nat := sig.body.length

/-- Modelled from the spec: a signature packet's `to_writer_with_header`. -/
def Signature.to_writer_with_header (sig : Signature) : List Nat :=
  packet_header Tag.Signature sig.body.length ++ sig.body

/-- Modelled from the spec: the details bundle's own encoding; the external
collaborator keeps its own byte-count predictor exact. -/
def SignedKeyDetails.to_writer (d : SignedKeyDetails) : List Nat := d.bytes

/-- Modelled from the spec: the details bundle's `write_len`. -/
def SignedKeyDetails.write_len (d : SignedKeyDetails) : Nat := d.bytes.length

/-- Source `<SignedPublicSubKey as Serialize>::to_writer`: key packet with header,
then each signature with header, appended to the writer in order. -/
def SignedPublicSubKey.to_writer (s : SignedPublicSubKey) : List Nat :=
  s.signatures.foldl (fun out sig => out ++ sig.to_writer_with_header)
    s.key.to_writer_with_header

/-- Source `<SignedPublicSubKey as Serialize>::write_len`: header width plus body
length for the key packet, accumulated likewise over the signatures. -/
def SignedPublicSubKey.write_len (s : SignedPublicSubKey) : Nat :=
  let key_len := s.key.write_len
  s.signatures.foldl
    (fun sum sig => sum + (PacketLength.fixed_encoding_len sig.write_len + sig.write_len))
    (PacketLength.fixed_encoding_len key_len + key_len)

/-- Modelled from the spec: `Serialize` for a vector sums the element
predictors (external `impl Serialize for Vec<T>`). -/
def subkeyListWriteLen (subs : List SignedPublicSubKey) : Nat :=
  (subs.map SignedPublicSubKey.write_len).sum

/-- Source `<SignedPublicKey as Serialize>::to_writer`: primary key packet with
header, then the details bundle, then each subkey in order. -/
def SignedPublicKey.to_writer (k : SignedPublicKey) : List Nat :=
  k.public_subkeys.foldl (fun out ps => out ++ ps.to_writer)
    (k.primary_key.to_writer_with_header ++ k.details.to_writer)

/-- Source `<SignedPublicKey as Serialize>::write_len`. -/
def SignedPublicKey.write_len (k : SignedPublicKey) : Nat :=
  let key_len := k.primary_key.write_len
  PacketLength.fixed_encoding_len key_len + key_len
    + k.details.write_len + subkeyListWriteLen k.public_subkeys

/-! ### Views -/

/-- The embedded-signature search in `SignedPublicSubKey::as_unsigned`:
the first `EmbeddedSignature` among the first signature's hashed
subpackets, when the signature has a parsed configuration. -/
def Signature.embeddedFromHashed (sig : Signature) : Option BackSig :=
  match sig.config with
  | none => none
  | some c => c.hashed_subpackets.findSome? (fun p =>
      match p with
      | SubpacketData.EmbeddedSignature backsig => some backsig
      | SubpacketData.OtherData _ => none)

/-- Source `SignedPublicSubKey::as_unsigned`.  The source calls
`.first().expect("missing signatures")`, panicking on an empty signature
list; the panic is modelled as `none`. -/
def SignedPublicSubKey.as_unsigned (s : SignedPublicSubKey) : Option PublicSubkey :=
  match s.signatures.head? with
  | none => none
  | some sig => some ⟨s.key, sig.key_flags, sig.embeddedFromHashed⟩

/-- Source `SignedPublicKey::as_unsigned` (propagating the modelled panic). -/
def SignedPublicKey.as_unsigned (k : SignedPublicKey) : Option PublicKey :=
  match k.public_subkeys.mapM SignedPublicSubKey.as_unsigned with
  | none => none
  | some subs => some ⟨k.primary_key, k.details.as_unsigned, subs⟩

/-! ### Armor block types -/

/-- Modelled from the spec: ASCII armor block types
(external `armor::BlockType`). -/
inductive BlockType where
  | PublicKey
  | PrivateKey
  | Message
  | MultiPartMessage (part total : Nat)
  | Signature
  | File
  | CleartextMessage
  deriving DecidableEq, Repr

/-- Source `<SignedPublicKey as Deserializable>::matches_block_type`. -/
def SignedPublicKey.matches_block_type (typ : BlockType) : Bool :=
  match typ with
  | BlockType.PublicKey | BlockType.File => true
  | _ => false

/-! ### Concrete sample values, used to instantiate the theorems below -/

/-- A sample primary key packet. -/
def wPrimary : PublicKeyPacket := ⟨[1, 2, 3], 100⟩

/-- A sample subkey packet. -/
def wSubkeyPkt : PublicSubkeyPacket := ⟨[4, 5], 120⟩

/-- A sample embedded reverse signature whose check succeeds. -/
def wBackSig : BackSig := ⟨[9], fun _ _ => Except.ok ()⟩

/-- A sample non-signing binding signature whose forward check succeeds. -/
def wSigPlain : Signature :=
  ⟨some SignatureType.SubkeyBinding, ⟨false, 0⟩, none, none, fun _ _ => Except.ok (), [7, 7]⟩

/-- A sample signing-capable binding signature with an embedded signature. -/
def wSigSigning : Signature :=
  ⟨some SignatureType.SubkeyBinding, ⟨true, 0⟩, some wBackSig,
    some ⟨[SubpacketData.OtherData 4, SubpacketData.EmbeddedSignature wBackSig]⟩,
    fun _ _ => Except.ok (), [8]⟩

/-- A sample signing-capable binding signature with no embedded signature. -/
def wSigNoEmbedded : Signature :=
  ⟨some SignatureType.SubkeyBinding, ⟨true, 0⟩, none, none, fun _ _ => Except.ok (), [6]⟩

/-- A sample signature of a foreign type (dropped by the subkey constructor). -/
def wSigForeign : Signature :=
  ⟨some SignatureType.CertGeneric, ⟨false, 0⟩, none, none, fun _ _ => Except.ok (), [5]⟩

/-- A sample details bundle (expiration 50) whose self-signature check succeeds. -/
def wDetails : SignedKeyDetails := ⟨some 50, fun _ => Except.ok (), [10, 11], ⟨0⟩⟩

/-- A sample details bundle with key-expiration duration 0. -/
def wDetailsZero : SignedKeyDetails := ⟨some 0, fun _ => Except.ok (), [10, 11], ⟨0⟩⟩

/-- A sample subkey with one non-signing binding signature. -/
def wSubkey : SignedPublicSubKey := ⟨wSubkeyPkt, [wSigPlain]⟩

/-- A sample subkey with an empty signature list. -/
def wSubkeyEmpty : SignedPublicSubKey := ⟨wSubkeyPkt, []⟩

/-- A sample certificate with one subkey. -/
def wCert : SignedPublicKey := ⟨wPrimary, wDetails, [wSubkey]⟩

/-- A sample certificate whose key-expiration duration is 0. -/
def wCertZero : SignedPublicKey := ⟨wPrimary, wDetailsZero, [wSubkey]⟩

/-! ### Theorems -/

/-- C3: certificate construction keeps exactly the candidate subkeys whose
signature list is non-empty (stated as the filter equation together with
its consequences: the retained list is a sublist of the input, every
subkey with a signature is kept, and every retained subkey has at least one
signature); the primary key and details pass through unchanged and the
constructor is total, so no error is ever returned. -/
theorem new_retains_exactly_signed_subkeys
    (p : PublicKeyPacket) (d : SignedKeyDetails) (subs : List SignedPublicSubKey) :
    (SignedPublicKey.new p d subs).primary_key = p ∧
    (SignedPublicKey.new p d subs).details = d ∧
    (SignedPublicKey.new p d subs).public_subkeys =
      subs.filter (fun sk => !sk.signatures.isEmpty) ∧
    List.Sublist (SignedPublicKey.new p d subs).public_subkeys subs ∧
    (∀ sk ∈ subs, sk.signatures ≠ [] → sk ∈ (SignedPublicKey.new p d subs).public_subkeys) ∧
    (∀ sk ∈ (SignedPublicKey.new p d subs).public_subkeys, sk.signatures ≠ []) := by
  refine ⟨rfl, rfl, rfl, List.filter_sublist subs, ?_, ?_⟩
  · intro sk hs hne
    exact List.mem_filter.mpr ⟨hs, by simpa using hne⟩
  · intro sk hmem
    have h := List.mem_filter.mp hmem
    simpa using h.2

/-- Witness for C3 at a concrete input: the empty-signature subkey is
dropped, the signed one kept. -/
theorem new_retains_exactly_signed_subkeys_witness :
    (SignedPublicKey.new wPrimary wDetails [wSubkeyEmpty, wSubkey]).public_subkeys =
      [wSubkeyEmpty, wSubkey].filter (fun sk => !sk.signatures.isEmpty) ∧
    wSubkey ∈ (SignedPublicKey.new wPrimary wDetails [wSubkeyEmpty, wSubkey]).public_subkeys := by
  have h := new_retains_exactly_signed_subkeys wPrimary wDetails [wSubkeyEmpty, wSubkey]
  exact ⟨h.2.2.1, h.2.2.2.2.1 wSubkey (by simp) (by simp [wSubkey])⟩

/-- C4: subkey construction keeps exactly the signatures typed subkey
binding or subkey revocation, in order; everything else (other types and
signatures with no determinable type) is dropped, and the constructor is
total, so no error is raised. -/
theorem subkey_new_retains_only_binding_or_revocation
    (key : PublicSubkeyPacket) (sigs : List Signature) :
    (SignedPublicSubKey.new key sigs).key = key ∧
    (SignedPublicSubKey.new key sigs).signatures =
      sigs.filter (fun sig =>
        decide (sig.typ = some SignatureType.SubkeyBinding) ||
        decide (sig.typ = some SignatureType.SubkeyRevocation)) ∧
    List.Sublist (SignedPublicSubKey.new key sigs).signatures sigs ∧
    (∀ sig ∈ (SignedPublicSubKey.new key sigs).signatures,
      sig.typ = some SignatureType.SubkeyBinding ∨
      sig.typ = some SignatureType.SubkeyRevocation) ∧
    (∀ sig ∈ sigs,
      (sig.typ = some SignatureType.SubkeyBinding ∨
       sig.typ = some SignatureType.SubkeyRevocation) →
      sig ∈ (SignedPublicSubKey.new key sigs).signatures) := by
  refine ⟨rfl, rfl, List.filter_sublist sigs, ?_, ?_⟩
  · intro sig hmem
    have h := List.mem_filter.mp hmem
    simpa using h.2
  · intro sig hs htyp
    exact List.mem_filter.mpr ⟨hs, by simpa using htyp⟩

/-- Witness for C4 at a concrete input: the foreign-typed signature is
dropped, the binding signature kept. -/
theorem subkey_new_retains_only_binding_or_revocation_witness :
    (∀ sig ∈ (SignedPublicSubKey.new wSubkeyPkt [wSigForeign, wSigPlain]).signatures,
      sig.typ = some SignatureType.SubkeyBinding ∨
      sig.typ = some SignatureType.SubkeyRevocation) ∧
    wSigPlain ∈ (SignedPublicSubKey.new wSubkeyPkt [wSigForeign, wSigPlain]).signatures := by
  have h := subkey_new_retains_only_binding_or_revocation wSubkeyPkt [wSigForeign, wSigPlain]
  exact ⟨h.2.2.2.1, h.2.2.2.2 wSigPlain (by simp) (Or.inl rfl)⟩

/-- C8: `expires_at` returns creation time plus the reported duration when
the details bundle reports a key-expiration duration, and `none` when it
reports none. -/
theorem expires_at_spec (k : SignedPublicKey) :
    (∀ d, k.details.key_expiration_time = some d →
      k.expires_at = some (k.primary_key.created_at + d)) ∧
    (k.details.key_expiration_time = none → k.expires_at = none) := by
  constructor
  · intro d hd
    simp [SignedPublicKey.expires_at, hd]
  · intro h
    simp [SignedPublicKey.expires_at, h]

/-- Witness for C8 at a concrete input, with a duration of 0. -/
theorem expires_at_spec_witness :
    wCertZero.expires_at = some (wCertZero.primary_key.created_at + 0) :=
  (expires_at_spec wCertZero).1 0 rfl

/-- A single signature check succeeds exactly when the forward binding
check succeeds and, for signing-capable key flags, an embedded signature is
present and its reverse binding check succeeds. -/
theorem verifyOneSig_ok_iff (key : PublicKeyPacket) (subkey : PublicSubkeyPacket)
    (sig : Signature) :
    SignedPublicSubKey.verifyOneSig key subkey sig = Except.ok () ↔
      (sig.verify_subkey_binding key subkey = Except.ok () ∧
        (sig.key_flags.sign = true →
          ∃ bs, sig.embedded_signature = some bs ∧
            bs.verify_primary_key_binding subkey key = Except.ok ())) := by
  unfold SignedPublicSubKey.verifyOneSig
  cases hv : sig.verify_subkey_binding key subkey with
  | error e => simp [hv, Bind.bind, Except.bind]
  | ok u =>
    cases u
    cases hs : sig.key_flags.sign with
    | false => simp [hv, hs, Bind.bind, Except.bind, pure, Except.pure]
    | true =>
      cases he : sig.embedded_signature with
      | none =>
        simp [hv, hs, he, Bind.bind, Except.bind, throw, throwThe, MonadExceptOf.throw]
      | some bs =>
        simp [hv, hs, he, Bind.bind, Except.bind]

/-- The signature loop succeeds exactly when every signature's check does. -/
theorem verifySigs_ok_iff (key : PublicKeyPacket) (subkey : PublicSubkeyPacket)
    (sigs : List Signature) :
    SignedPublicSubKey.verifySigs key subkey sigs = Except.ok () ↔
      ∀ sig ∈ sigs, SignedPublicSubKey.verifyOneSig key subkey sig = Except.ok () := by
  induction sigs with
  | nil => simp [SignedPublicSubKey.verifySigs, pure, Except.pure]
  | cons sig rest ih =>
    simp only [SignedPublicSubKey.verifySigs]
    cases h1 : SignedPublicSubKey.verifyOneSig key subkey sig with
    | error e => simp [h1, Bind.bind, Except.bind]
    | ok u =>
      cases u
      simp [h1, Bind.bind, Except.bind, ih]

/-- Subkey verification succeeds exactly when the signature list is
non-empty and every signature's check succeeds. -/
theorem subkey_verify_ok_iff (key : PublicKeyPacket) (sk : SignedPublicSubKey) :
    sk.verify key = Except.ok () ↔
      (sk.signatures ≠ [] ∧
        ∀ sig ∈ sk.signatures,
          SignedPublicSubKey.verifyOneSig key sk.key sig = Except.ok ()) := by
  unfold SignedPublicSubKey.verify
  cases h : sk.signatures.isEmpty with
  | true =>
    have hnil : sk.signatures = [] := by simpa using h
    simp [h, hnil, Bind.bind, Except.bind, throw, throwThe, MonadExceptOf.throw]
  | false =>
    have hne : sk.signatures ≠ [] := by simpa using h
    simp [h, hne, Bind.bind, Except.bind, pure, Except.pure, verifySigs_ok_iff]

/-- The subkey loop succeeds exactly when every subkey verifies. -/
theorem verifySubkeyList_ok_iff (key : PublicKeyPacket) (subs : List SignedPublicSubKey) :
    SignedPublicKey.verifySubkeyList key subs = Except.ok () ↔
      ∀ sk ∈ subs, sk.verify key = Except.ok () := by
  induction subs with
  | nil => simp [SignedPublicKey.verifySubkeyList, pure, Except.pure]
  | cons sk rest ih =>
    simp only [SignedPublicKey.verifySubkeyList]
    cases h1 : sk.verify key with
    | error e => simp [h1, Bind.bind, Except.bind]
    | ok u =>
      cases u
      simp [h1, Bind.bind, Except.bind, ih]

/-- Certificate verification succeeds exactly when the details bundle
verifies and every subkey verifies. -/
theorem cert_verify_ok_iff (k : SignedPublicKey) :
    k.verify = Except.ok () ↔
      (k.details.verify k.primary_key = Except.ok () ∧
        ∀ sk ∈ k.public_subkeys, sk.verify k.primary_key = Except.ok ()) := by
  unfold SignedPublicKey.verify SignedPublicKey.verify_public_subkeys
  cases h : k.details.verify k.primary_key with
  | error e => simp [h, Bind.bind, Except.bind]
  | ok u =>
    cases u
    simp [h, Bind.bind, Except.bind, verifySubkeyList_ok_iff]

/-- C1: for every certificate satisfying the construction invariant,
`verify` succeeds exactly when the details bundle's self-signature check
succeeds, every signature of every subkey passes the forward binding check,
and every signing-capable binding carries an embedded signature passing the
reverse binding check; consequently one failing forward check anywhere
makes `verify` fail. -/
theorem verify_ok_iff_all_bindings_valid (k : SignedPublicKey)
    (hinv : ∀ sk ∈ k.public_subkeys, sk.signatures ≠ []) :
    (k.verify = Except.ok () ↔
      (k.details.verify k.primary_key = Except.ok () ∧
        ∀ sk ∈ k.public_subkeys, ∀ sig ∈ sk.signatures,
          sig.verify_subkey_binding k.primary_key sk.key = Except.ok () ∧
          (sig.key_flags.sign = true →
            ∃ bs, sig.embedded_signature = some bs ∧
              bs.verify_primary_key_binding sk.key k.primary_key = Except.ok ()))) ∧
    (∀ sk ∈ k.public_subkeys, ∀ sig ∈ sk.signatures,
      sig.verify_subkey_binding k.primary_key sk.key ≠ Except.ok () →
      k.verify ≠ Except.ok ()) := by
  constructor
  · rw [cert_verify_ok_iff]
    constructor
    · rintro ⟨hd, hsub⟩
      refine ⟨hd, ?_⟩
      intro sk hsk sig hsig
      have h2 := (subkey_verify_ok_iff k.primary_key sk).mp (hsub sk hsk)
      exact (verifyOneSig_ok_iff _ _ _).mp (h2.2 sig hsig)
    · rintro ⟨hd, hall⟩
      refine ⟨hd, ?_⟩
      intro sk hsk
      refine (subkey_verify_ok_iff _ _).mpr ⟨hinv sk hsk, ?_⟩
      intro sig hsig
      exact (verifyOneSig_ok_iff _ _ _).mpr (hall sk hsk sig hsig)
  · intro sk hsk sig hsig hfail hok
    have h := (cert_verify_ok_iff k).mp hok
    have h2 := (subkey_verify_ok_iff k.primary_key sk).mp (h.2 sk hsk)
    exact hfail ((verifyOneSig_ok_iff _ _ _).mp (h2.2 sig hsig)).1

/-- Witness for C1 at a concrete certificate: all checks pass, so `verify`
succeeds. -/
theorem verify_ok_iff_all_bindings_valid_witness :
    wCert.verify = Except.ok () := by
  refine ((verify_ok_iff_all_bindings_valid wCert ?_).1).mpr ⟨rfl, ?_⟩
  · intro sk hsk
    have h : sk = wSubkey := by simpa [wCert] using hsk
    subst h
    simp [wSubkey]
  · intro sk hsk sig hsig
    have h : sk = wSubkey := by simpa [wCert] using hsk
    subst h
    have h2 : sig = wSigPlain := by simpa [wSubkey] using hsig
    subst h2
    refine ⟨rfl, ?_⟩
    intro hs
    simp [wSigPlain] at hs

/-- A passing prefix of the signature loop is skipped without affecting the
result. -/
theorem verifySigs_append_ok (key : PublicKeyPacket) (subkey : PublicSubkeyPacket)
    (pre l : List Signature)
    (hpre : ∀ s ∈ pre, SignedPublicSubKey.verifyOneSig key subkey s = Except.ok ()) :
    SignedPublicSubKey.verifySigs key subkey (pre ++ l) =
      SignedPublicSubKey.verifySigs key subkey l := by
  induction pre with
  | nil => rfl
  | cons s rest ih =>
    have hs := hpre s (by simp)
    simp only [List.cons_append, SignedPublicSubKey.verifySigs, hs, Bind.bind, Except.bind]
    exact ih (fun s2 h2 => hpre s2 (by simp [h2]))

/-- A signing-capable signature without an embedded signature fails its
check with the dedicated message. -/
theorem verifyOneSig_missing_embedded (key : PublicKeyPacket) (subkey : PublicSubkeyPacket)
    (sig : Signature)
    (hok : sig.verify_subkey_binding key subkey = Except.ok ())
    (hsign : sig.key_flags.sign = true)
    (hemb : sig.embedded_signature = none) :
    SignedPublicSubKey.verifyOneSig key subkey sig =
      Except.error "missing embedded signature for signing capable subkey" := by
  unfold SignedPublicSubKey.verifyOneSig
  simp [hok, hsign, hemb, Bind.bind, Except.bind, throw, throwThe, MonadExceptOf.throw]

/-- C5: subkey verification fails with "missing subkey bindings" on an empty
signature list, and with "missing embedded signature for signing capable
subkey" at the first signature whose key flags are signing-capable but which
carries no embedded signature — whatever signatures follow it (abort on
first failure). -/
theorem subkey_verify_error_messages (key : PublicKeyPacket) (sk : SignedPublicSubKey) :
    (sk.signatures = [] → sk.verify key = Except.error "missing subkey bindings") ∧
    (∀ pre sig rest, sk.signatures = pre ++ sig :: rest →
      (∀ s ∈ pre, SignedPublicSubKey.verifyOneSig key sk.key s = Except.ok ()) →
      sig.verify_subkey_binding key sk.key = Except.ok () →
      sig.key_flags.sign = true →
      sig.embedded_signature = none →
      sk.verify key =
        Except.error "missing embedded signature for signing capable subkey") := by
  constructor
  · intro hnil
    unfold SignedPublicSubKey.verify
    simp [hnil, Bind.bind, Except.bind, throw, throwThe, MonadExceptOf.throw]
  · intro pre sig rest hsigs hpre hok hsign hemb
    have hne : sk.signatures.isEmpty = false := by simp [hsigs]
    unfold SignedPublicSubKey.verify
    simp only [hne, Bool.false_eq_true, if_false, hsigs, Bind.bind, Except.bind,
      pure, Except.pure]
    rw [verifySigs_append_ok key sk.key pre (sig :: rest) hpre]
    simp only [SignedPublicSubKey.verifySigs,
      verifyOneSig_missing_embedded key sk.key sig hok hsign hemb, Bind.bind, Except.bind]
    simp

/-- Witness for C5 at concrete inputs: the two error messages are produced. -/
theorem subkey_verify_error_messages_witness :
    wSubkeyEmpty.verify wPrimary = Except.error "missing subkey bindings" ∧
    SignedPublicSubKey.verify ⟨wSubkeyPkt, [wSigNoEmbedded]⟩ wPrimary =
      Except.error "missing embedded signature for signing capable subkey" := by
  constructor
  · exact (subkey_verify_error_messages wPrimary wSubkeyEmpty).1 rfl
  · exact (subkey_verify_error_messages wPrimary ⟨wSubkeyPkt, [wSigNoEmbedded]⟩).2
      [] wSigNoEmbedded [] rfl (by simp) rfl rfl rfl

/-- The full packet header has exactly the width the predictor charges for
it. -/
theorem packet_header_length (tag len : Nat) :
    (packet_header tag len).length = PacketLength.fixed_encoding_len len := by
  unfold packet_header PacketLength.fixed_encoding_len
  by_cases h1 : len < 192
  · simp [h1]
  · by_cases h2 : len < 8384
    · simp [h1, h2]
    · simp [h1, h2]

/-- The signature write loop and the signature length loop stay in step. -/
theorem sig_foldl_len (sigs : List Signature) (out : List Nat) :
    (sigs.foldl (fun o sig => o ++ sig.to_writer_with_header) out).length =
      sigs.foldl
        (fun sum sig =>
          sum + (PacketLength.fixed_encoding_len sig.write_len + sig.write_len))
        out.length := by
  induction sigs generalizing out with
  | nil => rfl
  | cons sig rest ih =>
    simp only [List.foldl_cons]
    rw [ih]
    congr 1
    simp [Signature.to_writer_with_header, Signature.write_len, packet_header_length]

/-- The subkey predictor equals its emitted byte count. -/
theorem subkey_write_len_eq (s : SignedPublicSubKey) :
    s.write_len = s.to_writer.length := by
  unfold SignedPublicSubKey.write_len SignedPublicSubKey.to_writer
  rw [sig_foldl_len]
  simp [PublicSubkeyPacket.to_writer_with_header, PublicSubkeyPacket.write_len,
    packet_header_length]

/-- The certificate write loop over subkeys adds exactly the summed subkey
predictors. -/
theorem cert_foldl_len (subs : List SignedPublicSubKey) (out : List Nat) :
    (subs.foldl (fun o ps => o ++ ps.to_writer) out).length =
      out.length + subkeyListWriteLen subs := by
  induction subs generalizing out with
  | nil => simp [subkeyListWriteLen]
  | cons s rest ih =>
    simp only [List.foldl_cons]
    rw [ih]
    simp [subkeyListWriteLen, subkey_write_len_eq, Nat.add_assoc]

/-- C2: the byte-count predictor equals exactly the number of bytes emitted
by serialization, for every certificate (in particular with zero, one, or
many subkeys). -/
theorem write_len_eq_to_writer_length (k : SignedPublicKey) :
    k.write_len = k.to_writer.length := by
  unfold SignedPublicKey.write_len SignedPublicKey.to_writer
  rw [cert_foldl_len]
  simp [PublicKeyPacket.to_writer_with_header, PublicKeyPacket.write_len,
    SignedKeyDetails.to_writer, SignedKeyDetails.write_len, packet_header_length,
    Nat.add_assoc]

/-- Appending writes in a loop flattens to the mapped encodings in order. -/
theorem foldl_append_flatten {α : Type} (f : α → List Nat) (l : List α) (init : List Nat) :
    l.foldl (fun o x => o ++ f x) init = init ++ (l.map f).flatten := by
  induction l generalizing init with
  | nil => simp
  | cons x rest ih => simp [List.foldl_cons, ih]

/-- A subkey serializes to its key packet with header followed by its
signatures with headers, in list order. -/
theorem subkey_to_writer_eq (s : SignedPublicSubKey) :
    s.to_writer = s.key.to_writer_with_header ++
      (s.signatures.map Signature.to_writer_with_header).flatten := by
  unfold SignedPublicSubKey.to_writer
  rw [foldl_append_flatten]

/-- C6: serialization emits, in order, the primary key packet with header,
the details bundle's encoding, then for each subkey in list order its
packet with header followed by each of its signatures with headers in list
order — and nothing else. -/
theorem to_writer_canonical_order (k : SignedPublicKey) :
    k.to_writer =
      k.primary_key.to_writer_with_header ++ k.details.to_writer ++
        (k.public_subkeys.map (fun s =>
          s.key.to_writer_with_header ++
            (s.signatures.map Signature.to_writer_with_header).flatten)).flatten := by
  unfold SignedPublicKey.to_writer
  rw [foldl_append_flatten]
  rw [List.map_congr_left (fun s _ => subkey_to_writer_eq s)]

/-- A subkey's unsigned view exists exactly when it has a signature. -/
theorem subkey_as_unsigned_none_iff (s : SignedPublicSubKey) :
    s.as_unsigned = none ↔ s.signatures = [] := by
  unfold SignedPublicSubKey.as_unsigned
  cases h : s.signatures.head? with
  | none =>
    simp only [true_iff]
    exact List.head?_eq_none_iff.mp h
  | some sig =>
    simp only [reduceCtorEq, false_iff]
    intro hnil
    rw [hnil] at h
    cases h

/-- Mapping the unsigned view over subkeys with non-empty signature lists
produces one entry per subkey, each built from the first signature. -/
theorem mapM_as_unsigned_of_nonempty (l : List SignedPublicSubKey)
    (h : ∀ sk ∈ l, sk.signatures ≠ []) :
    ∃ us, l.mapM SignedPublicSubKey.as_unsigned = some us ∧
      us.length = l.length ∧
      ∀ (i : Nat) (hi : i < l.length) (hu : i < us.length) (sig : Signature)
        (rest : List Signature),
        (l.get ⟨i, hi⟩).signatures = sig :: rest →
        us.get ⟨i, hu⟩ =
          ⟨(l.get ⟨i, hi⟩).key, sig.key_flags, sig.embeddedFromHashed⟩ := by
  induction l with
  | nil =>
    exact ⟨[], rfl, rfl, fun i hi => absurd hi (Nat.not_lt_zero i)⟩
  | cons sk rest ih =>
    obtain ⟨sig0, rest0, hsk⟩ :
        ∃ sig0 rest0, sk.signatures = sig0 :: rest0 := by
      cases hc : sk.signatures with
      | nil => exact absurd hc (h sk (by simp))
      | cons a b => exact ⟨a, b, rfl⟩
    have ha : SignedPublicSubKey.as_unsigned sk =
        some ⟨sk.key, sig0.key_flags, sig0.embeddedFromHashed⟩ := by
      unfold SignedPublicSubKey.as_unsigned
      rw [hsk]
      rfl
    obtain ⟨us, hus, hlen, hidx⟩ := ih (fun s2 h2 => h s2 (by simp [h2]))
    refine ⟨⟨sk.key, sig0.key_flags, sig0.embeddedFromHashed⟩ :: us,
      ?_, by simp [hlen], ?_⟩
    · rw [List.mapM_cons, ha, hus]
      rfl
    · intro i hi hu sig rest2 hsigs
      match i with
      | 0 =>
        simp only [List.get] at hsigs ⊢
        rw [hsk] at hsigs
        cases hsigs
        rfl
      | j + 1 =>
        simp only [List.get] at hsigs ⊢
        exact hidx j (by simpa using hi) (by simpa using hu) sig rest2 hsigs

/-- C7: on a certificate whose subkeys each have at least one signature,
`as_unsigned` returns a projection with the same primary key, the unsigned
details, and exactly one unsigned entry per subkey in order, each entry
built only from that subkey's first signature (its key flags and the
embedded signature found among its hashed subpackets). -/
theorem as_unsigned_uses_first_signature (k : SignedPublicKey)
    (hinv : ∀ sk ∈ k.public_subkeys, sk.signatures ≠ []) :
    ∃ u, k.as_unsigned = some u ∧
      u.primary_key = k.primary_key ∧
      u.details = k.details.as_unsigned ∧
      u.public_subkeys.length = k.public_subkeys.length ∧
      ∀ (i : Nat) (hi : i < k.public_subkeys.length) (hu : i < u.public_subkeys.length)
        (sig : Signature) (rest : List Signature),
        (k.public_subkeys.get ⟨i, hi⟩).signatures = sig :: rest →
        u.public_subkeys.get ⟨i, hu⟩ =
          ⟨(k.public_subkeys.get ⟨i, hi⟩).key, sig.key_flags, sig.embeddedFromHashed⟩ := by
  obtain ⟨us, hus, hlen, hidx⟩ := mapM_as_unsigned_of_nonempty k.public_subkeys hinv
  refine ⟨⟨k.primary_key, k.details.as_unsigned, us⟩, ?_, rfl, rfl, hlen, hidx⟩
  unfold SignedPublicKey.as_unsigned
  rw [hus]

/-- A sample subkey carrying a signing-capable signature first. -/
def wSubkeySigning : SignedPublicSubKey := ⟨wSubkeyPkt, [wSigSigning, wSigPlain]⟩

/-- A sample certificate with two subkeys. -/
def wCert2 : SignedPublicKey := ⟨wPrimary, wDetails, [wSubkey, wSubkeySigning]⟩

/-- Witness for C7 at a concrete two-subkey certificate: the projection has
exactly two entries, each derived from the first signature. -/
theorem as_unsigned_uses_first_signature_witness :
    wCert2.as_unsigned =
      some ⟨wPrimary, wDetails.as_unsigned,
        [⟨wSubkeyPkt, wSigPlain.key_flags, wSigPlain.embeddedFromHashed⟩,
         ⟨wSubkeyPkt, wSigSigning.key_flags, wSigSigning.embeddedFromHashed⟩]⟩ := by
  obtain ⟨u, h1, -, -, -, -⟩ := as_unsigned_uses_first_signature wCert2 (by
    intro sk hsk
    rcases (by simpa [wCert2] using hsk : sk = wSubkey ∨ sk = wSubkeySigning) with h | h <;>
      subst h <;> simp [wSubkey, wSubkeySigning])
  have h2 : some u = wCert2.as_unsigned := h1.symm
  exact h1.trans (h2.trans rfl)

/-- The construction invariant as a reusable fact: `new` leaves no subkey
without signatures. -/
theorem new_subkeys_nonempty (p : PublicKeyPacket) (d : SignedKeyDetails)
    (subs : List SignedPublicSubKey) :
    ∀ sk ∈ (SignedPublicKey.new p d subs).public_subkeys, sk.signatures ≠ [] := by
  intro sk hmem
  have h := List.mem_filter.mp hmem
  simpa using h.2

/-- Mapping the unsigned view over a subkey list fails exactly when some
subkey in it has no signature. -/
theorem mapM_as_unsigned_none_iff (l : List SignedPublicSubKey) :
    l.mapM SignedPublicSubKey.as_unsigned = none ↔
      ∃ sk ∈ l, sk.signatures = [] := by
  induction l with
  | nil =>
    constructor
    · intro h
      exact Option.noConfusion h
    · rintro ⟨sk, hsk, -⟩
      cases hsk
  | cons sk rest ih =>
    rw [List.mapM_cons]
    cases h : SignedPublicSubKey.as_unsigned sk with
    | none =>
      have h0 := (subkey_as_unsigned_none_iff sk).mp h
      constructor
      · intro _
        exact ⟨sk, List.mem_cons_self sk rest, h0⟩
      · intro _
        rfl
    | some v =>
      have hne : sk.signatures ≠ [] := by
        intro hnil
        rw [(subkey_as_unsigned_none_iff sk).mpr hnil] at h
        cases h
      cases hr : rest.mapM SignedPublicSubKey.as_unsigned with
      | none =>
        constructor
        · intro _
          obtain ⟨s2, hs2, hnil⟩ := ih.mp hr
          exact ⟨s2, List.mem_cons_of_mem sk hs2, hnil⟩
        · intro _
          simp [hr]
      | some vs =>
        constructor
        · intro hl
          simp [hr] at hl
        · rintro ⟨s2, hs2, hnil⟩
          rcases List.mem_cons.mp hs2 with h2 | h2
          · subst h2
            exact absurd hnil hne
          · have hcontra := ih.mpr ⟨s2, h2, hnil⟩
            rw [hr] at hcontra
            exact Option.noConfusion hcontra

/-- The certificate view fails exactly when some subkey has no signature. -/
theorem cert_as_unsigned_none_iff (k : SignedPublicKey) :
    k.as_unsigned = none ↔ ∃ sk ∈ k.public_subkeys, sk.signatures = [] := by
  unfold SignedPublicKey.as_unsigned
  rw [← mapM_as_unsigned_none_iff]
  cases hm : k.public_subkeys.mapM SignedPublicSubKey.as_unsigned <;> simp [hm]

/-- C9: the subkey view is partial exactly at empty signature lists (the
source panic modelled as `none`); the certificate view panics exactly when
some subkey in it has an empty list; and every certificate built by the
constructor is outside the panic branch, so there the view is total. -/
theorem as_unsigned_partiality :
    (∀ s : SignedPublicSubKey, s.as_unsigned = none ↔ s.signatures = []) ∧
    (∀ k : SignedPublicKey,
      (k.as_unsigned = none ↔ ∃ sk ∈ k.public_subkeys, sk.signatures = [])) ∧
    (∀ (p : PublicKeyPacket) (d : SignedKeyDetails) (subs : List SignedPublicSubKey),
      ∃ u, (SignedPublicKey.new p d subs).as_unsigned = some u) := by
  refine ⟨subkey_as_unsigned_none_iff, cert_as_unsigned_none_iff, ?_⟩
  intro p d subs
  cases hu : (SignedPublicKey.new p d subs).as_unsigned with
  | some u => exact ⟨u, rfl⟩
  | none =>
    obtain ⟨sk, hmem, hnil⟩ := (cert_as_unsigned_none_iff _).mp hu
    exact absurd hnil (new_subkeys_nonempty p d subs sk hmem)

/-- C10: the certificate accepts exactly the PUBLIC KEY and FILE armor
block types. -/
theorem matches_block_type_iff (typ : BlockType) :
    SignedPublicKey.matches_block_type typ = true ↔
      (typ = BlockType.PublicKey ∨ typ = BlockType.File) := by
  cases typ <;> simp [SignedPublicKey.matches_block_type]

/-- A sample certificate with no subkeys. -/
def wCert0 : SignedPublicKey := ⟨wPrimary, wDetails, []⟩

/-- Witness for C2 at concrete certificates with zero, one and two
subkeys. -/
theorem write_len_eq_to_writer_length_witness :
    wCert0.write_len = wCert0.to_writer.length ∧
    wCert.write_len = wCert.to_writer.length ∧
    wCert2.write_len = wCert2.to_writer.length :=
  ⟨write_len_eq_to_writer_length wCert0, write_len_eq_to_writer_length wCert,
    write_len_eq_to_writer_length wCert2⟩

/-- Witness for C6 at a concrete two-subkey certificate. -/
theorem to_writer_canonical_order_witness :
    wCert2.to_writer =
      wCert2.primary_key.to_writer_with_header ++ wCert2.details.to_writer ++
        (wCert2.public_subkeys.map (fun s =>
          s.key.to_writer_with_header ++
            (s.signatures.map Signature.to_writer_with_header).flatten)).flatten :=
  to_writer_canonical_order wCert2

/-- Witness for C9 at concrete inputs: the view is `none` exactly on the
empty-signature subkey, and a constructed certificate always projects. -/
theorem as_unsigned_partiality_witness :
    wSubkeyEmpty.as_unsigned = none ∧
    SignedPublicKey.as_unsigned ⟨wPrimary, wDetails, [wSubkeyEmpty]⟩ = none := by
  refine ⟨(as_unsigned_partiality.1 wSubkeyEmpty).mpr rfl, ?_⟩
  exact (as_unsigned_partiality.2.1 ⟨wPrimary, wDetails, [wSubkeyEmpty]⟩).mpr
    ⟨wSubkeyEmpty, by simp, rfl⟩

/-- Witness for C10 at concrete block types. -/
theorem matches_block_type_iff_witness :
    SignedPublicKey.matches_block_type BlockType.PublicKey = true ∧
    SignedPublicKey.matches_block_type BlockType.File = true ∧
    SignedPublicKey.matches_block_type BlockType.Message = false :=
  ⟨(matches_block_type_iff BlockType.PublicKey).mpr (Or.inl rfl),
    (matches_block_type_iff BlockType.File).mpr (Or.inr rfl), rfl⟩

end RPGP
